import Mathlib

/-!
Verification development for the citagraph repository (citagraph2.py and
citagraph3.py). The in-memory state of both programs is a networkx `DiGraph`
together with three Python dicts keyed by paper id: `display_names` (titles),
`paper_info` (attribute records) and `paper_links` (urls). We embed this state
as a structure over association lists; Python dicts are association lists with
unique keys, lookups and inserts follow Python dict semantics (insert replaces
an existing binding).

`citagraph2.py` keeps `paper_info` records with fields `author`/`year`, while
`citagraph3.py` keeps `author`/`pi`/`year` and (for imported papers only) an
`all_authors` key; the store is therefore parametrised by the record type and
each program gets its own instantiation in namespaces `CG2` and `CG3`.
-/

namespace Citagraph

/-- Lookup in an association list: the value bound to the first occurrence of
the key, as in a Python dict read `m[k]` / `m.get(k)`. -/
def lookupA {α : Type} (k : String) : List (String × α) → Option α
  | [] => none
  | (k', v) :: rest => if k' = k then some v else lookupA k rest

/-- Insert into an association list: replace the binding if the key is
present, otherwise append, as in a Python dict write `m[k] = v`. -/
def insertA {α : Type} (k : String) (v : α) : List (String × α) → List (String × α)
  | [] => [(k, v)]
  | (k', v') :: rest => if k' = k then (k, v) :: rest else (k', v') :: insertA k v rest

/-- Remove a key from an association list, as in `m.pop(k, None)` /
`del m[k]`. -/
def eraseA {α : Type} (k : String) : List (String × α) → List (String × α)
  | [] => []
  | (k', v') :: rest => if k' = k then rest else (k', v') :: eraseA k rest

/-- The shared mutable state of the dashboard: the networkx directed graph
(node list and edge list, both without duplicates, in insertion order) and the
three dicts `display_names`, `paper_info`, `paper_links`. -/
structure Store (α : Type) where
  nodes : List String
  edges : List (String × String)
  display_names : List (String × String)
  paper_info : List (String × α)
  paper_links : List (String × String)
deriving DecidableEq

/-- The empty store: fresh `nx.DiGraph()` and empty dicts. -/
def emptyStore {α : Type} : Store α := ⟨[], [], [], [], []⟩

/-- `graph.add_node(n)`: a no-op when the node exists, otherwise the node is
appended (networkx keeps insertion order). -/
def addNode {α : Type} (s : Store α) (n : String) : Store α :=
  if n ∈ s.nodes then s else { s with nodes := s.nodes ++ [n] }

/-- `graph.add_edge(u, v)`: adds missing endpoints as nodes, then adds the
edge unless it is already present (a `DiGraph` has no parallel edges). -/
def addEdge {α : Type} (s : Store α) (u v : String) : Store α :=
  if (u, v) ∈ (addNode (addNode s u) v).edges then addNode (addNode s u) v
  else { addNode (addNode s u) v with edges := (addNode (addNode s u) v).edges ++ [(u, v)] }

/-- `list(graph.successors(n))`: targets of the outgoing edges of `n`, in
edge-insertion order. -/
def successors {α : Type} (s : Store α) (n : String) : List String :=
  (s.edges.filter (fun e => e.1 == n)).map (fun e => e.2)

/-- The Delete Paper handler: `graph.remove_node(id)` removes the node and
every incident edge, then the three dicts drop their entry for `id`. -/
def deletePaper {α : Type} (s : Store α) (pid : String) : Store α :=
  { nodes := s.nodes.erase pid,
    edges := s.edges.filter (fun e => e.1 != pid && e.2 != pid),
    display_names := eraseA pid s.display_names,
    paper_info := eraseA pid s.paper_info,
    paper_links := eraseA pid s.paper_links }

/-- The Add Citation handler: if `graph.has_edge(src, tgt)` fails the edge is
added (success message), otherwise nothing changes and a warning is shown.
The boolean records which message was reported. -/
def addCitation {α : Type} (s : Store α) (src tgt : String) : Store α × Bool :=
  if (src, tgt) ∈ s.edges then (s, false) else (addEdge s src tgt, true)

/-- The Remove Citation handler: if the edge exists it is removed (success
message), otherwise nothing changes and a warning is shown. -/
def removeCitation {α : Type} (s : Store α) (src tgt : String) : Store α × Bool :=
  if (src, tgt) ∈ s.edges then
    ({ s with edges := s.edges.erase (src, tgt) }, true)
  else (s, false)

/-- The `citations` loop of `load_graph_from_json`: for every entry
`(paper_id, cited_ids)` and every `cited_id`, `graph.add_edge(paper_id,
cited_id)`. -/
def loadCitations {α : Type} (s : Store α) : List (String × List String) → Store α
  | [] => s
  | (pid, cited) :: rest =>
      loadCitations (cited.foldl (fun t c => addEdge t pid c) s) rest

/-- One paper object of the persisted JSON document; every field is optional
(`info.get(...)` with a default). -/
structure PaperJson where
  title : Option String
  author : Option String
  pi : Option String
  year : Option String
  url : Option String
deriving DecidableEq

/-- The persisted JSON document: the two top-level mappings `papers` and
`citations`. -/
structure Doc where
  papers : List (String × PaperJson)
  citations : List (String × List String)
deriving DecidableEq

/-! Decimal formatting. `decRepr` embeds Python's decimal rendering of a
non-negative integer (`str(n)`, and the digits part of `f-string` formatting);
`pad4` embeds the format spec `04d`: left-pad the decimal representation with
zeros to at least four characters. -/

/-- The character of a single decimal digit. -/
def digitChar (d : Nat) : Char := Char.ofNat (48 + d)

/-- Little-endian decimal digits of a positive number, with explicit fuel
(any fuel of at least `n` yields the digits of `n`). -/
def decDigitsAux : Nat → Nat → List Nat
  | 0, _ => []
  | fuel + 1, n => if n = 0 then [] else n % 10 :: decDigitsAux fuel (n / 10)

/-- Decimal representation of a natural number (most significant digit
first), as Python's `str`. -/
def decRepr (n : Nat) : String :=
  if n = 0 then "0" else String.mk (((decDigitsAux n n).map digitChar).reverse)

/-- Python `f-string` formatting with format spec `04d` (for non-negative
arguments): the decimal representation left-padded with zeros to width 4. -/
def pad4 (n : Nat) : String :=
  let s := decRepr n
  if s.length < 4 then String.mk (List.replicate (4 - s.length) '0' ++ s.data) else s

/-- Python `str.strip()` (ASCII whitespace suffices for this development):
drop leading and trailing whitespace characters. -/
def pyStrip (s : String) : String :=
  String.mk (((s.data.dropWhile Char.isWhitespace).reverse.dropWhile Char.isWhitespace).reverse)

namespace CG2

/-- A `paper_info` record of citagraph2.py: keys `author` and `year`. -/
structure PaperInfo where
  author : String
  year : String
deriving DecidableEq

/-- The `while f-formatted id in existing_ids` scan of the Add Paper handler,
written with explicit fuel; the fuel is chosen large enough that the final
fallback is unreachable (some id among the first `existing.length + 1`
candidates must be free). -/
def findFreeId (existing : List String) : Nat → Nat → String
  | 0, i => pad4 i
  | fuel + 1, i => if pad4 i ∈ existing then findFreeId existing fuel (i + 1) else pad4 i

/-- Auto-assignment of a paper id in the Add Paper handler: scan
`0001, 0002, ...` for the first formatted id not among the existing node
ids. -/
def nextPaperId (s : Store PaperInfo) : String :=
  findFreeId s.nodes (s.nodes.length + 1) 1

/-- The Add Paper handler: auto-assign an id when the stripped input is
blank, otherwise use the stripped input; then add the node and set title,
author/year record and url. Returns the new store and the assigned id. -/
def addPaper (s : Store PaperInfo) (idInput title author year url : String) :
    Store PaperInfo × String :=
  let newId := if pyStrip idInput = "" then nextPaperId s else pyStrip idInput
  let s1 := addNode s newId
  ({ s1 with
      display_names := insertA newId title s1.display_names,
      paper_info := insertA newId ⟨author, year⟩ s1.paper_info,
      paper_links := insertA newId url s1.paper_links }, newId)

/-- The `papers` loop of citagraph2's `load_graph_from_json`: add the node and
record title (default: the paper id), author and year (default `Unknown`) and
url (default empty). -/
def loadPaper (s : Store PaperInfo) (pid : String) (info : PaperJson) : Store PaperInfo :=
  let s1 := addNode s pid
  { s1 with
      display_names := insertA pid (info.title.getD pid) s1.display_names,
      paper_info := insertA pid ⟨info.author.getD "Unknown", info.year.getD "Unknown"⟩ s1.paper_info,
      paper_links := insertA pid (info.url.getD "") s1.paper_links }

/-- citagraph2's `load_graph_from_json`: an absent file (`none`) yields the
empty store; otherwise the `papers` mapping is read first, then the
`citations` mapping. -/
def load_graph_from_json (file : Option Doc) : Store PaperInfo :=
  match file with
  | none => emptyStore
  | some d => loadCitations (d.papers.foldl (fun s p => loadPaper s p.1 p.2) emptyStore) d.citations

end CG2

/-- Value of a little-endian digit list. -/
def ofDigitsLE : List Nat → Nat
  | [] => 0
  | d :: L => d + 10 * ofDigitsLE L

/-- Big-endian accumulation of a character list into a number; leading `'0'`
characters do not change the value. -/
def toNatFold (a : Nat) (cs : List Char) : Nat :=
  cs.foldl (fun a c => a * 10 + (c.toNat - 48)) a

/-- Left inverse of `pad4`. -/
def pad4Inv (s : String) : Nat := toNatFold 0 s.data

namespace CG3

/-- A `paper_info` record of citagraph3.py: keys `author`, `pi`, `year`, and
(only for papers created by the DOI import) `all_authors`; `none` models the
absence of the `all_authors` key. -/
structure PaperInfo where
  author : String
  pi : String
  year : String
  all_authors : Option (List String)
deriving DecidableEq

/-- The `papers` loop of citagraph3's `load_graph_from_json`: add the node
and record title (default: the paper id), author/pi/year (default `Unknown`)
and url (default empty). The loaded record carries no `all_authors` key. -/
def loadPaper (s : Store PaperInfo) (pid : String) (info : PaperJson) : Store PaperInfo :=
  let s1 := addNode s pid
  { s1 with
      display_names := insertA pid (info.title.getD pid) s1.display_names,
      paper_info := insertA pid
        ⟨info.author.getD "Unknown", info.pi.getD "Unknown", info.year.getD "Unknown", none⟩
        s1.paper_info,
      paper_links := insertA pid (info.url.getD "") s1.paper_links }

/-- citagraph3's `load_graph_from_json`: an absent file (`none`) yields the
empty store; otherwise the `papers` mapping is read first, then the
`citations` mapping (where `add_edge` may create nodes that have no entry in
the three dicts). -/
def load_graph_from_json (file : Option Doc) : Store PaperInfo :=
  match file with
  | none => emptyStore
  | some d =>
      loadCitations (d.papers.foldl (fun s p => loadPaper s p.1 p.2) emptyStore) d.citations

/-- The node loop of `save_graph_to_json`: for each node, read its title,
info record and url with plain dict indexing — a missing entry raises
`KeyError`, modelled by `none` — and emit its paper object and successor
list. -/
def saveNodes (s : Store PaperInfo) :
    List String → Option (List (String × PaperJson) × List (String × List String))
  | [] => some ([], [])
  | n :: rest =>
      match lookupA n s.display_names, lookupA n s.paper_info, lookupA n s.paper_links with
      | some t, some info, some url =>
          (saveNodes s rest).map (fun pc =>
            ((n, ⟨some t, some info.author, some info.pi, some info.year, some url⟩) :: pc.1,
             (n, successors s n) :: pc.2))
      | _, _, _ => none

/-- citagraph3's `save_graph_to_json`: serialize every node with its
attributes and outbound edges; `none` models the `KeyError` raised when a
node has no entry in one of the three dicts (nothing is written then). -/
def save_graph_to_json (s : Store PaperInfo) : Option Doc :=
  (saveNodes s s.nodes).map (fun pc => ⟨pc.1, pc.2⟩)

/-- The paper object `save_graph_to_json` emits for a node whose dict
entries all exist: each field is the value read from the corresponding
dict. -/
def savedRecord (s : Store PaperInfo) (n : String) : PaperJson :=
  { title := lookupA n s.display_names,
    author := (lookupA n s.paper_info).map (fun i => i.author),
    pi := (lookupA n s.paper_info).map (fun i => i.pi),
    year := (lookupA n s.paper_info).map (fun i => i.year),
    url := lookupA n s.paper_links }

/-- One entry of the Crossref `message.author` array; `corresponding` is the
truthiness of the optional `corresponding` value (`author.get('corresponding',
False)`). -/
structure Author where
  family : Option String
  given : Option String
  sequence : Option String
  corresponding : Bool
deriving DecidableEq

/-- The parts of the Crossref `message` object that `fetch_paper_metadata`
reads. `date_parts` holds `published-print.date-parts` with each entry
already rendered by Python's `str`; `reference` holds the optional `DOI`
field of each reference entry. -/
structure CrossrefMessage where
  title : Option (List String)
  author : Option (List Author)
  date_parts : Option (List (List String))
  reference : Option (List (Option String))
deriving DecidableEq

/-- Outcome of the single outbound request: a network/transport error (the
`requests.get` call raised), or a response with a status code and either a
parsed `message` body or `none` for a malformed/unparsable body. -/
inductive HttpOutcome where
  | netError
  | response (status : Nat) (body : Option CrossrefMessage)
deriving DecidableEq

/-- The normalized metadata dict returned by `fetch_paper_metadata` on
success. -/
structure Metadata where
  title : String
  author : String
  pi : String
  year : String
  url : String
  references : List String
  all_authors : List String
deriving DecidableEq

/-- The `for author in authors` loop that overrides the PI guess: the first
author with `sequence == 'additional'` and a truthy `corresponding` wins
(its `family`, defaulting to the current guess), then the loop breaks. -/
def piScan (pi : String) : List Author → String
  | [] => pi
  | a :: rest =>
      if a.sequence == some "additional" && a.corresponding then a.family.getD pi
      else piScan pi rest

/-- The PI heuristic of `fetch_paper_metadata`: `Unknown` unless there are at
least two authors; otherwise the last author's family name (default
`Unknown`), overridden by the scan for a corresponding author. -/
def inferPI (authors : List Author) : String :=
  if authors.length > 1 then
    piScan ((authors.getLast?.map (fun a => a.family.getD "Unknown")).getD "Unknown") authors
  else "Unknown"

/-- First-author extraction of `fetch_paper_metadata`: the `family` of the
first entry (default `Unknown`), or `Unknown` for an empty author list. -/
def firstAuthorOf (authors : List Author) : String :=
  match authors with
  | [] => "Unknown"
  | a :: _ => a.family.getD "Unknown"

/-- Building the metadata dict from a parsed `message`. `none` models an
exception while indexing (title list present but empty, or `date-parts`
present but empty at either level), which the caller catches and turns into
a `None` result. -/
def buildMetadata (doi : String) (m : CrossrefMessage) : Option Metadata := do
  let t ← (m.title.getD [""]).head?
  let dp0 ← (m.date_parts.getD [[""]]).head?
  let y ← dp0.head?
  let authors := m.author.getD []
  some { title := t
         author := firstAuthorOf authors
         pi := inferPI authors
         year := y
         url := "https://doi.org/" ++ doi
         references := (m.reference.getD []).filterMap (fun r =>
           match r with
           | some d => if d = "" then none else some d
           | none => none)
         all_authors := authors.map (fun a => a.given.getD "" ++ " " ++ a.family.getD "") }

/-- `fetch_paper_metadata` as a function of the request outcome: `none` for a
transport error, a non-200 status, a malformed body, or an indexing failure
while building the metadata. -/
def fetch_paper_metadata (doi : String) : HttpOutcome → Option Metadata
  | .netError => none
  | .response status body =>
      if status = 200 then
        match body with
        | none => none
        | some msg => buildMetadata doi msg
      else none

/-- Result of `add_paper_with_references`: the updated store, the Python
return value (`True` on success, `None` on failure), and the
`citations_found` counter that is reported to the user via `st.info`. -/
structure ImportResult where
  store : Store PaperInfo
  ok : Option Bool
  citations_found : Nat
deriving DecidableEq

/-- The store mutations of a successful `add_paper_with_references` before
the reference loop: `graph.add_node(doi)`, then the title, the
author/pi/year/all_authors record and the url are written keyed by the DOI; if
the interactive PI correction differs from the fetched PI, the record's `pi`
is overwritten with it. -/
def importBase (s : Store PaperInfo) (doi : String) (md : Metadata)
    (correctedPi : String) : Store PaperInfo :=
  let s1 := addNode s doi
  let s2 := { s1 with display_names := insertA doi md.title s1.display_names }
  let s3 :=
    { s2 with
        paper_info := insertA doi
          (⟨md.author, md.pi, md.year, some md.all_authors⟩ : PaperInfo) s2.paper_info }
  let s4 := { s3 with paper_links := insertA doi md.url s3.paper_links }
  if correctedPi ≠ md.pi then
    { s4 with
        paper_info := insertA doi
          (⟨md.author, correctedPi, md.year, some md.all_authors⟩ : PaperInfo)
          s4.paper_info }
  else s4

/-- `add_paper_with_references`, parametrised by the already-computed fetch
result and by the value of the interactive `Correct PI if needed` text input
(whose default is the fetched `pi`, so a non-interacting user leaves it
equal). On failure the store is returned untouched; on success the paper is
keyed by the DOI itself, then `existing_papers` is read from the graph
(after the new node was added) and an edge is added — and counted — for
every reference DOI found among the existing nodes. -/
def add_paper_with_references (s : Store PaperInfo) (doi : String)
    (fetchResult : Option Metadata) (correctedPi : String) : ImportResult :=
  match fetchResult with
  | none => ⟨s, none, 0⟩
  | some md =>
      let s5 := importBase s doi md correctedPi
      let final := md.references.foldl
        (fun (acc : Store PaperInfo × Nat) ref =>
          if ref ∈ s5.nodes then (addEdge acc.1 doi ref, acc.2 + 1) else acc)
        (s5, 0)
      ⟨final.1, some true, final.2⟩

/-- Python `str.isdigit` (ASCII digits suffice for this development): true
for a nonempty string of decimal digits. -/
def isDigitStr (y : String) : Bool :=
  !y.data.isEmpty && y.data.all Char.isDigit

/-- The digits part of Python `int(...)` parsing: a nonempty run of decimal
digits. (Python's underscore digit grouping is not modelled.) -/
def pyIntDigits? (ds : List Char) : Option Nat :=
  if ds.isEmpty then none
  else if ds.all Char.isDigit then some (toNatFold 0 ds) else none

/-- Python `int(y)` for a string argument: strip whitespace, allow one
optional sign, then decimal digits; `none` models the `ValueError` on any
other shape. -/
def pyInt? (y : String) : Option Int :=
  match (pyStrip y).data with
  | [] => none
  | c :: ds =>
      if c = '-' then (pyIntDigits? ds).map (fun n => -(Int.ofNat n))
      else if c = '+' then (pyIntDigits? ds).map Int.ofNat
      else (pyIntDigits? (c :: ds)).map Int.ofNat

/-- The Decade column of the paper table:
`f-string (int(y)//10)*10 followed by s if str(y).isdigit() else Unknown`. -/
def decadeLabel (y : String) : String :=
  if isDigitStr y then decRepr (toNatFold 0 y.data / 10 * 10) ++ "s" else "Unknown"

/-- The decade → color lookup table of `get_decade_color`. -/
def decadeColorTable : List (Int × String) :=
  [(1960, "rgb(255, 0, 0)"), (1970, "rgb(255, 127, 0)"), (1980, "rgb(255, 255, 0)"),
   (1990, "rgb(0, 255, 0)"), (2000, "rgb(0, 0, 255)"), (2010, "rgb(75, 0, 130)"),
   (2020, "rgb(148, 0, 211)"), (2030, "rgb(200, 0, 255)")]

/-- `get_decade_color`: parse the year with `int(...)` (note: not
`isdigit`), take the decade with Python floor division, and look it up in
the color table; gray when the decade is unmapped or parsing raised. -/
def get_decade_color (year : String) : String :=
  match pyInt? year with
  | some n => (decadeColorTable.lookup (n.fdiv 10 * 10)).getD "rgb(128, 128, 128)"
  | none => "rgb(128, 128, 128)"

end CG3

/-! Arithmetic facts about the decimal rendering, used to show that the
auto-id scan of the Add Paper handler terminates on a free identifier. -/

theorem decDigitsAux_lt (fuel n : Nat) : ∀ d ∈ decDigitsAux fuel n, d < 10 := by
  induction fuel generalizing n with
  | zero => intro d hd; simp [decDigitsAux] at hd
  | succ fuel ih =>
    intro d hd
    by_cases h0 : n = 0
    · simp [decDigitsAux, h0] at hd
    · simp only [decDigitsAux, if_neg h0, List.mem_cons] at hd
      rcases hd with h | h
      · subst h; omega
      · exact ih _ d h

theorem ofDigitsLE_decDigitsAux (fuel n : Nat) (h : n ≤ fuel) :
    ofDigitsLE (decDigitsAux fuel n) = n := by
  induction fuel generalizing n with
  | zero => interval_cases n; rfl
  | succ fuel ih =>
    by_cases h0 : n = 0
    · simp [decDigitsAux, h0, ofDigitsLE]
    · have hlt : n / 10 ≤ fuel := by
        have := Nat.div_lt_self (Nat.pos_of_ne_zero h0) (by norm_num : 1 < 10)
        omega
      simp only [decDigitsAux, if_neg h0, ofDigitsLE, ih _ hlt]
      omega

theorem digitChar_toNat : ∀ d, d < 10 → (digitChar d).toNat = 48 + d := by decide

theorem natFold_reverse (L : List Nat) (a : Nat) :
    L.reverse.foldl (fun a d => a * 10 + d) a = a * 10 ^ L.length + ofDigitsLE L := by
  induction L generalizing a with
  | nil => simp [ofDigitsLE]
  | cons d L ih =>
    simp only [List.reverse_cons, List.foldl_append, List.foldl_cons, List.foldl_nil, ih,
      ofDigitsLE, List.length_cons]
    ring

theorem toNatFold_digitChars (L : List Nat) (h : ∀ d ∈ L, d < 10) (a : Nat) :
    toNatFold a ((L.map digitChar).reverse) = a * 10 ^ L.length + ofDigitsLE L := by
  unfold toNatFold
  rw [← List.map_reverse, List.foldl_map]
  have hext : List.foldl (fun x y => x * 10 + ((digitChar y).toNat - 48)) a L.reverse
      = List.foldl (fun x y => x * 10 + y) a L.reverse := by
    apply List.foldl_ext
    intro b d hd
    rw [digitChar_toNat d (h d (List.mem_reverse.mp hd))]
    omega
  rw [hext, natFold_reverse]

theorem toNatFold_replicate_zero (p : Nat) (cs : List Char) :
    toNatFold 0 (List.replicate p '0' ++ cs) = toNatFold 0 cs := by
  induction p with
  | zero => simp
  | succ p ih => simpa [toNatFold, List.replicate_succ] using ih

theorem pad4Inv_decRepr (n : Nat) : pad4Inv (decRepr n) = n := by
  by_cases h0 : n = 0
  · subst h0; decide
  · unfold pad4Inv decRepr
    rw [if_neg h0]
    show toNatFold 0 _ = n
    rw [toNatFold_digitChars _ (decDigitsAux_lt n n), ofDigitsLE_decDigitsAux n n le_rfl]
    omega

theorem pad4Inv_pad4 (n : Nat) : pad4Inv (pad4 n) = n := by
  unfold pad4
  simp only []
  split
  · show toNatFold 0 _ = n
    rw [show (String.mk (List.replicate (4 - (decRepr n).length) '0' ++ (decRepr n).data)).data
        = List.replicate (4 - (decRepr n).length) '0' ++ (decRepr n).data from rfl]
    rw [toNatFold_replicate_zero]
    exact pad4Inv_decRepr n
  · exact pad4Inv_decRepr n

theorem pad4_injective : Function.Injective pad4 := by
  intro a b h
  have := congrArg pad4Inv h
  rwa [pad4Inv_pad4, pad4Inv_pad4] at this

/-- Among the first `existing.length + 1` candidate ids `0001, 0002, ...`
at least one is not already taken. -/
theorem exists_free_id (existing : List String) :
    ∃ k, k < existing.length + 1 ∧ pad4 (1 + k) ∉ existing := by
  by_contra hcon
  push_neg at hcon
  have hinj : Function.Injective (fun k : Nat => pad4 (1 + k)) := by
    intro x y hxy
    have := pad4_injective hxy
    omega
  have hnodup : ((List.range (existing.length + 1)).map (fun k => pad4 (1 + k))).Nodup :=
    (List.nodup_range _).map hinj
  have hsub : ((List.range (existing.length + 1)).map (fun k => pad4 (1 + k))) ⊆ existing := by
    intro x hx
    simp only [List.mem_map, List.mem_range] at hx
    obtain ⟨k, hk, rfl⟩ := hx
    exact hcon k hk
  have := (List.subperm_of_subset hnodup hsub).length_le
  simp at this

namespace CG2

/-- The fuelled id scan returns the first free formatted id, provided some
free id exists within the fuel. -/
theorem findFreeId_spec (existing : List String) :
    ∀ fuel i, (∃ k, k < fuel ∧ pad4 (i + k) ∉ existing) →
      findFreeId existing fuel i ∉ existing ∧
        ∃ m, i ≤ m ∧ findFreeId existing fuel i = pad4 m ∧
          ∀ j, i ≤ j → j < m → pad4 j ∈ existing := by
  intro fuel
  induction fuel with
  | zero => intro i ⟨k, hk, _⟩; omega
  | succ fuel ih =>
    intro i ⟨k, hk, hfree⟩
    by_cases hmem : pad4 i ∈ existing
    · have hk0 : k ≠ 0 := by rintro rfl; simp at hfree; exact hfree hmem
      obtain ⟨r, hfuel, hrfree⟩ : ∃ r, r < fuel ∧ pad4 (i + 1 + r) ∉ existing := by
        refine ⟨k - 1, by omega, ?_⟩
        have heq : i + 1 + (k - 1) = i + k := by omega
        rw [heq]
        exact hfree
      have hrec := ih (i + 1) ⟨r, hfuel, hrfree⟩
      rw [findFreeId, if_pos hmem]
      refine ⟨hrec.1, ?_⟩
      obtain ⟨m, him, heq, hall⟩ := hrec.2
      refine ⟨m, by omega, heq, fun j hij hjm => ?_⟩
      rcases Nat.eq_or_lt_of_le hij with h | h
      · rwa [← h]
      · exact hall j h hjm
    · rw [findFreeId, if_neg hmem]
      exact ⟨hmem, i, le_rfl, rfl, fun j h1 h2 => by omega⟩

/-- `nextPaperId` yields the smallest formatted id `pad4 m`, `m ≥ 1`, not
among the existing node ids. -/
theorem nextPaperId_spec (s : Store PaperInfo) :
    nextPaperId s ∉ s.nodes ∧
      ∃ m, 1 ≤ m ∧ nextPaperId s = pad4 m ∧
        ∀ j, 1 ≤ j → j < m → pad4 j ∈ s.nodes := by
  obtain ⟨k, hk, hfree⟩ := exists_free_id s.nodes
  exact findFreeId_spec s.nodes (s.nodes.length + 1) 1 ⟨k, hk, hfree⟩

end CG2

/-! Basic facts about the graph primitives. -/

variable {α : Type}

@[simp] theorem addNode_edges (s : Store α) (n : String) : (addNode s n).edges = s.edges := by
  unfold addNode; split <;> rfl

@[simp] theorem addNode_display (s : Store α) (n : String) :
    (addNode s n).display_names = s.display_names := by
  unfold addNode; split <;> rfl

@[simp] theorem addNode_info (s : Store α) (n : String) :
    (addNode s n).paper_info = s.paper_info := by
  unfold addNode; split <;> rfl

@[simp] theorem addNode_links (s : Store α) (n : String) :
    (addNode s n).paper_links = s.paper_links := by
  unfold addNode; split <;> rfl

theorem addNode_of_mem {s : Store α} {n : String} (h : n ∈ s.nodes) : addNode s n = s := by
  unfold addNode; rw [if_pos h]

theorem mem_addNode_nodes (s : Store α) (n x : String) :
    x ∈ (addNode s n).nodes ↔ x ∈ s.nodes ∨ x = n := by
  unfold addNode
  split
  · constructor
    · exact fun h => Or.inl h
    · rintro (h | rfl) <;> [exact h; assumption]
  · simp

theorem addNode_nodes_nodup {s : Store α} {n : String} (h : s.nodes.Nodup) :
    (addNode s n).nodes.Nodup := by
  unfold addNode
  split
  · exact h
  · simpa [List.nodup_append] using ⟨h, by assumption⟩

@[simp] theorem addEdge_display (s : Store α) (u v : String) :
    (addEdge s u v).display_names = s.display_names := by
  unfold addEdge; split <;> simp

@[simp] theorem addEdge_info (s : Store α) (u v : String) :
    (addEdge s u v).paper_info = s.paper_info := by
  unfold addEdge; split <;> simp

@[simp] theorem addEdge_links (s : Store α) (u v : String) :
    (addEdge s u v).paper_links = s.paper_links := by
  unfold addEdge; split <;> simp

theorem mem_addEdge_edges (s : Store α) (u v : String) (e : String × String) :
    e ∈ (addEdge s u v).edges ↔ e ∈ s.edges ∨ e = (u, v) := by
  unfold addEdge
  split
  · simp only [addNode_edges]
    constructor
    · exact fun h => Or.inl h
    · rintro (h | rfl) <;> simp_all [addNode_edges]
  · simp [addNode_edges]

theorem mem_addEdge_nodes (s : Store α) (u v : String) (x : String) :
    x ∈ (addEdge s u v).nodes ↔ x ∈ s.nodes ∨ x = u ∨ x = v := by
  unfold addEdge
  split <;> simp [mem_addNode_nodes, or_assoc]

theorem addEdge_nodes_of_mem {s : Store α} {u v : String} (hu : u ∈ s.nodes)
    (hv : v ∈ s.nodes) : (addEdge s u v).nodes = s.nodes := by
  unfold addEdge
  rw [addNode_of_mem hu, addNode_of_mem hv]
  split <;> rfl

theorem addEdge_edges_nodup {s : Store α} {u v : String} (h : s.edges.Nodup) :
    (addEdge s u v).edges.Nodup := by
  unfold addEdge
  split
  · simpa [addNode_edges] using h
  · simp only [addNode_edges] at *
    simpa [List.nodup_append] using ⟨h, by assumption⟩

theorem addEdge_nodes_nodup {s : Store α} {u v : String} (h : s.nodes.Nodup) :
    (addEdge s u v).nodes.Nodup := by
  unfold addEdge
  split <;> exact addNode_nodes_nodup (addNode_nodes_nodup h)

/-! Facts about the citation-loading loop. -/

theorem foldl_addEdge_display (cited : List String) (s : Store α) (pid : String) :
    (cited.foldl (fun t c => addEdge t pid c) s).display_names = s.display_names := by
  induction cited generalizing s with
  | nil => rfl
  | cons c rest ih => simp [ih]

theorem foldl_addEdge_info (cited : List String) (s : Store α) (pid : String) :
    (cited.foldl (fun t c => addEdge t pid c) s).paper_info = s.paper_info := by
  induction cited generalizing s with
  | nil => rfl
  | cons c rest ih => simp [ih]

theorem foldl_addEdge_links (cited : List String) (s : Store α) (pid : String) :
    (cited.foldl (fun t c => addEdge t pid c) s).paper_links = s.paper_links := by
  induction cited generalizing s with
  | nil => rfl
  | cons c rest ih => simp [ih]

theorem foldl_addEdge_mem_edges (cited : List String) (s : Store α) (pid : String)
    (e : String × String) :
    e ∈ (cited.foldl (fun t c => addEdge t pid c) s).edges ↔
      e ∈ s.edges ∨ (e.1 = pid ∧ e.2 ∈ cited) := by
  induction cited generalizing s with
  | nil => simp
  | cons c rest ih =>
    simp only [List.foldl_cons, ih, mem_addEdge_edges, List.mem_cons]
    constructor
    · rintro ((h | rfl) | ⟨h1, h2⟩)
      · exact Or.inl h
      · exact Or.inr ⟨rfl, Or.inl rfl⟩
      · exact Or.inr ⟨h1, Or.inr h2⟩
    · rintro (h | ⟨h1, h2 | h2⟩)
      · exact Or.inl (Or.inl h)
      · refine Or.inl (Or.inr ?_)
        cases e
        simp_all
      · exact Or.inr ⟨h1, h2⟩

theorem foldl_addEdge_edges_nodup (cited : List String) {s : Store α} (pid : String)
    (h : s.edges.Nodup) :
    (cited.foldl (fun t c => addEdge t pid c) s).edges.Nodup := by
  induction cited generalizing s with
  | nil => exact h
  | cons c rest ih => exact ih (addEdge_edges_nodup h)

theorem foldl_addEdge_nodes_of_mem (cited : List String) {s : Store α} {pid : String}
    (hp : pid ∈ s.nodes) (hc : ∀ c ∈ cited, c ∈ s.nodes) :
    (cited.foldl (fun t c => addEdge t pid c) s).nodes = s.nodes := by
  induction cited generalizing s with
  | nil => rfl
  | cons c rest ih =>
    simp only [List.foldl_cons]
    have heq : (addEdge s pid c).nodes = s.nodes :=
      addEdge_nodes_of_mem hp (hc c (by simp))
    rw [ih (by rw [heq]; exact hp) (fun x hx => by rw [heq]; exact hc x (by simp [hx]))]
    exact heq

theorem loadCitations_display (s : Store α) (cs : List (String × List String)) :
    (loadCitations s cs).display_names = s.display_names := by
  induction cs generalizing s with
  | nil => rfl
  | cons pc rest ih =>
    cases pc
    simp [loadCitations, ih, foldl_addEdge_display]

theorem loadCitations_info (s : Store α) (cs : List (String × List String)) :
    (loadCitations s cs).paper_info = s.paper_info := by
  induction cs generalizing s with
  | nil => rfl
  | cons pc rest ih =>
    cases pc
    simp [loadCitations, ih, foldl_addEdge_info]

theorem loadCitations_links (s : Store α) (cs : List (String × List String)) :
    (loadCitations s cs).paper_links = s.paper_links := by
  induction cs generalizing s with
  | nil => rfl
  | cons pc rest ih =>
    cases pc
    simp [loadCitations, ih, foldl_addEdge_links]

theorem loadCitations_mem_edges (s : Store α) (cs : List (String × List String))
    (e : String × String) :
    e ∈ (loadCitations s cs).edges ↔
      e ∈ s.edges ∨ ∃ pc ∈ cs, e.1 = pc.1 ∧ e.2 ∈ pc.2 := by
  induction cs generalizing s with
  | nil => simp [loadCitations]
  | cons pc rest ih =>
    cases pc with
    | mk pid cited =>
      simp only [loadCitations, ih, foldl_addEdge_mem_edges, List.mem_cons]
      constructor
      · rintro ((h | h) | ⟨qc, hqc, h⟩)
        · exact Or.inl h
        · exact Or.inr ⟨(pid, cited), Or.inl rfl, h⟩
        · exact Or.inr ⟨qc, Or.inr hqc, h⟩
      · rintro (h | ⟨qc, hqc | hqc, h⟩)
        · exact Or.inl (Or.inl h)
        · subst hqc; exact Or.inl (Or.inr h)
        · exact Or.inr ⟨qc, hqc, h⟩

theorem loadCitations_edges_nodup {s : Store α} (cs : List (String × List String))
    (h : s.edges.Nodup) : (loadCitations s cs).edges.Nodup := by
  induction cs generalizing s with
  | nil => exact h
  | cons pc rest ih =>
    cases pc
    exact ih (foldl_addEdge_edges_nodup _ _ h)

theorem loadCitations_nodes_of_closed {s : Store α} {cs : List (String × List String)}
    (h : ∀ pc ∈ cs, pc.1 ∈ s.nodes ∧ ∀ c ∈ pc.2, c ∈ s.nodes) :
    (loadCitations s cs).nodes = s.nodes := by
  induction cs generalizing s with
  | nil => rfl
  | cons pc rest ih =>
    cases pc with
    | mk pid cited =>
      simp only [loadCitations]
      have hpc := h (pid, cited) (by simp)
      have heq := foldl_addEdge_nodes_of_mem cited hpc.1 hpc.2
      rw [ih (fun qc hqc => by rw [heq]; exact h qc (by simp [hqc]))]
      exact heq

/-! Remaining facts about the citagraph2 operations needed for the
duplicate-edge invariant. -/

theorem addPaper_edges (s : Store CG2.PaperInfo) (idInput title author year url : String) :
    (CG2.addPaper s idInput title author year url).1.edges = s.edges := by
  simp [CG2.addPaper]

theorem loadPaper_edges (s : Store CG2.PaperInfo) (pid : String) (info : PaperJson) :
    (CG2.loadPaper s pid info).edges = s.edges := by
  simp [CG2.loadPaper]

theorem foldl_loadPaper_edges (ps : List (String × PaperJson)) (s : Store CG2.PaperInfo) :
    (ps.foldl (fun t p => CG2.loadPaper t p.1 p.2) s).edges = s.edges := by
  induction ps generalizing s with
  | nil => rfl
  | cons p rest ih => simp [ih, loadPaper_edges]

theorem mem_addCitation_edges (s : Store α) (a b : String) :
    (a, b) ∈ (addCitation s a b).1.edges := by
  unfold addCitation
  split
  · assumption
  · simp [mem_addEdge_edges]

theorem addCitation_of_mem {s : Store α} {a b : String} (h : (a, b) ∈ s.edges) :
    addCitation s a b = (s, false) := by
  unfold addCitation
  rw [if_pos h]

theorem count_pair_eq_one {p : String × String} : ∀ {l : List (String × String)},
    l.Nodup → p ∈ l → l.count p = 1 := by
  intro l
  induction l with
  | nil => intro _ hm; simp at hm
  | cons q l ih =>
    intro hnd hm
    rcases List.mem_cons.mp hm with rfl | hm2
    · have hnotin : p ∉ l := (List.nodup_cons.mp hnd).1
      rw [List.count_cons]
      simp [List.count_eq_zero.mpr hnotin]
    · have hne : ¬(q = p) := by
        rintro rfl
        exact (List.nodup_cons.mp hnd).1 hm2
      rw [List.count_cons]
      simp [hne, ih (List.nodup_cons.mp hnd).2 hm2]

/-- C7. The store never holds two citation edges with the same source and
target: every store operation of citagraph2 keeps the edge list duplicate
free, loading always produces a duplicate-free edge list, and a second
`addCitation(a,b)` is a reported no-op (warning, `false`) that leaves the
store untouched, so the edge `(a,b)` occurs exactly once. -/
theorem spec_C7_no_duplicate_edges :
    (∀ (s : Store CG2.PaperInfo) (a b : String), s.edges.Nodup →
        ((addCitation s a b).1.edges.Nodup)) ∧
    (∀ (s : Store CG2.PaperInfo) (a b : String), s.edges.Nodup →
        ((removeCitation s a b).1.edges.Nodup)) ∧
    (∀ (s : Store CG2.PaperInfo) (pid : String), s.edges.Nodup →
        ((deletePaper s pid).edges.Nodup)) ∧
    (∀ (s : Store CG2.PaperInfo) (idInput title author year url : String), s.edges.Nodup →
        ((CG2.addPaper s idInput title author year url).1.edges.Nodup)) ∧
    (∀ file : Option Doc, (CG2.load_graph_from_json file).edges.Nodup) ∧
    (∀ (s : Store CG2.PaperInfo) (a b : String),
        addCitation (addCitation s a b).1 a b = ((addCitation s a b).1, false)) ∧
    (∀ (s : Store CG2.PaperInfo) (a b : String), s.edges.Nodup →
        (addCitation s a b).1.edges.count (a, b) = 1) := by
  have hadd : ∀ (s : Store CG2.PaperInfo) (a b : String), s.edges.Nodup →
      ((addCitation s a b).1.edges.Nodup) := by
    intro s a b h
    unfold addCitation
    split
    · exact h
    · exact addEdge_edges_nodup h
  refine ⟨hadd, ?_, ?_, ?_, ?_, ?_, ?_⟩
  · intro s a b h
    unfold removeCitation
    split
    · exact h.erase _
    · exact h
  · intro s pid h
    exact h.filter _
  · intro s idInput title author year url h
    rw [addPaper_edges]
    exact h
  · intro file
    cases file with
    | none => simp [CG2.load_graph_from_json, emptyStore]
    | some d =>
      apply loadCitations_edges_nodup
      rw [foldl_loadPaper_edges]
      simp [emptyStore]
  · intro s a b
    exact addCitation_of_mem (mem_addCitation_edges s a b)
  · intro s a b h
    exact count_pair_eq_one (hadd s a b h) (mem_addCitation_edges s a b)

/-- Witness for C7 at a concrete store: adding the same citation twice on a
two-paper store yields the edge exactly once and a reported no-op. -/
theorem spec_C7_witness :
    (([("0001", "0002")] : List (String × String)).Nodup) ∧
    (addCitation
        (addCitation (⟨["0001", "0002"], [], [], [], []⟩ : Store CG2.PaperInfo) "0001" "0002").1
        "0001" "0002" =
      ((addCitation (⟨["0001", "0002"], [], [], [], []⟩ : Store CG2.PaperInfo) "0001" "0002").1,
        false)) ∧
    ((addCitation (⟨["0001", "0002"], [], [], [], []⟩ : Store CG2.PaperInfo)
        "0001" "0002").1.edges.count ("0001", "0002") = 1) :=
  ⟨by decide,
   spec_C7_no_duplicate_edges.2.2.2.2.2.1 _ "0001" "0002",
   spec_C7_no_duplicate_edges.2.2.2.2.2.2 _ "0001" "0002" (by decide)⟩

/-- C6. The Add Paper handler with a blank (or whitespace) id input assigns
the smallest zero-padded numeric id `pad4 m` (`m` scanned from 1 upward) not
already present among the existing node ids. -/
theorem spec_C6_auto_id (s : Store CG2.PaperInfo) (idInput title author year url : String)
    (hblank : pyStrip idInput = "") :
    (CG2.addPaper s idInput title author year url).2 ∉ s.nodes ∧
      ∃ m, 1 ≤ m ∧ (CG2.addPaper s idInput title author year url).2 = pad4 m ∧
        ∀ j, 1 ≤ j → j < m → pad4 j ∈ s.nodes := by
  have h2 : (CG2.addPaper s idInput title author year url).2 = CG2.nextPaperId s := by
    simp [CG2.addPaper, hblank]
  rw [h2]
  exact CG2.nextPaperId_spec s


/-- Witness for C6: with existing ids 0001, 0002, 0004 a blank id input
assigns 0003. -/
theorem spec_C6_witness :
    pyStrip "" = "" ∧
    ((CG2.addPaper (⟨["0001", "0002", "0004"], [], [], [], []⟩ : Store CG2.PaperInfo)
        "" "T" "A" "2001" "u").2 ∉ (["0001", "0002", "0004"] : List String) ∧
      ∃ m, 1 ≤ m ∧
        (CG2.addPaper (⟨["0001", "0002", "0004"], [], [], [], []⟩ : Store CG2.PaperInfo)
          "" "T" "A" "2001" "u").2 = pad4 m ∧
        ∀ j, 1 ≤ j → j < m →
          pad4 j ∈ (["0001", "0002", "0004"] : List String)) ∧
    (CG2.addPaper (⟨["0001", "0002", "0004"], [], [], [], []⟩ : Store CG2.PaperInfo)
        "" "T" "A" "2001" "u").2 = "0003" :=
  ⟨by decide, spec_C6_auto_id _ "" "T" "A" "2001" "u" (by decide), by decide⟩

/-! Association-list lookup laws. -/

theorem lookupA_insertA_self {β : Type} (k : String) (v : β) (m : List (String × β)) :
    lookupA k (insertA k v m) = some v := by
  induction m with
  | nil => simp [insertA, lookupA]
  | cons p rest ih =>
    cases p with
    | mk k1 v1 =>
      by_cases h : k1 = k
      · simp [insertA, h, lookupA]
      · simp [insertA, h, lookupA, ih]

theorem lookupA_insertA_ne {β : Type} {k k1 : String} (h : k1 ≠ k) (v : β)
    (m : List (String × β)) : lookupA k (insertA k1 v m) = lookupA k m := by
  induction m with
  | nil => simp [insertA, lookupA, h]
  | cons p rest ih =>
    cases p with
    | mk k2 v2 =>
      by_cases h2 : k2 = k1
      · subst h2
        simp only [insertA, if_pos rfl, lookupA]
        rw [if_neg h, if_neg h]
      · simp only [insertA, if_neg h2, lookupA]
        by_cases h3 : k2 = k
        · rw [if_pos h3, if_pos h3]
        · rw [if_neg h3, if_neg h3, ih]

/-- C10. The `existing_papers` set is read from the graph after the new
paper's node was added, so a fetched reference list containing the queried
DOI itself produces a self-citation edge, counted as a found citation: on an
empty store, importing DOI `10.1/x` whose metadata lists `10.1/x` among its
references yields exactly the edge `(10.1/x, 10.1/x)` and a
`citations_found` count of 1. -/
theorem spec_C10_self_citation :
    (CG3.add_paper_with_references emptyStore "10.1/x"
        (some ⟨"T", "A", "P", "2000", "https://doi.org/10.1/x", ["10.1/x"], ["A P"]⟩)
        "P").store.edges = [("10.1/x", "10.1/x")] ∧
    (CG3.add_paper_with_references emptyStore "10.1/x"
        (some ⟨"T", "A", "P", "2000", "https://doi.org/10.1/x", ["10.1/x"], ["A P"]⟩)
        "P").citations_found = 1 := by
  exact ⟨rfl, rfl⟩

/-- C5. `fetch_paper_metadata` yields `None` on a transport error, a non-200
status, a malformed body, or a failure while building the metadata from the
parsed body; and whenever the fetch result is `None`,
`add_paper_with_references` returns the store unchanged with a `None`
success value. -/
theorem spec_C5_failure_leaves_store_unchanged :
    (∀ doi : String, CG3.fetch_paper_metadata doi .netError = none) ∧
    (∀ (doi : String) (status : Nat) (body : Option CG3.CrossrefMessage), status ≠ 200 →
        CG3.fetch_paper_metadata doi (.response status body) = none) ∧
    (∀ (doi : String) (status : Nat),
        CG3.fetch_paper_metadata doi (.response status none) = none) ∧
    (∀ (doi : String) (status : Nat) (msg : CG3.CrossrefMessage),
        CG3.buildMetadata doi msg = none →
        CG3.fetch_paper_metadata doi (.response status (some msg)) = none) ∧
    (∀ (s : Store CG3.PaperInfo) (doi correctedPi : String) (o : CG3.HttpOutcome),
        CG3.fetch_paper_metadata doi o = none →
        CG3.add_paper_with_references s doi (CG3.fetch_paper_metadata doi o) correctedPi =
          ⟨s, none, 0⟩) := by
  refine ⟨fun doi => rfl, ?_, ?_, ?_, ?_⟩
  · intro doi status body h
    simp [CG3.fetch_paper_metadata, h]
  · intro doi status
    simp only [CG3.fetch_paper_metadata]
    split <;> rfl
  · intro doi status msg h
    simp only [CG3.fetch_paper_metadata]
    split
    · exact h
    · rfl
  · intro s doi correctedPi o h
    rw [h]
    rfl

/-- Witness for C5: a 404 response yields `None` and the import of that
result leaves a one-paper store untouched. -/
theorem spec_C5_witness :
    (404 ≠ 200) ∧
    CG3.fetch_paper_metadata "10.1/x" (.response 404 none) = none ∧
    CG3.add_paper_with_references
        (⟨["a"], [], [("a", "t")], [("a", ⟨"x", "y", "z", none⟩)], [("a", "u")]⟩ :
          Store CG3.PaperInfo)
        "10.1/x" (CG3.fetch_paper_metadata "10.1/x" (.response 404 none)) "P" =
      ⟨⟨["a"], [], [("a", "t")], [("a", ⟨"x", "y", "z", none⟩)], [("a", "u")]⟩, none, 0⟩ :=
  ⟨by decide,
   spec_C5_failure_leaves_store_unchanged.2.1 "10.1/x" 404 none (by decide),
   spec_C5_failure_leaves_store_unchanged.2.2.2.2 _ "10.1/x" "P" (.response 404 none)
     (spec_C5_failure_leaves_store_unchanged.2.1 "10.1/x" 404 none (by decide))⟩

/-! Lookup behaviour of the citagraph3 paper-loading fold. -/

theorem loadPaper3_display (s : Store CG3.PaperInfo) (pid : String) (info : PaperJson) :
    (CG3.loadPaper s pid info).display_names =
      insertA pid (info.title.getD pid) s.display_names := by
  simp [CG3.loadPaper]

theorem loadPaper3_info (s : Store CG3.PaperInfo) (pid : String) (info : PaperJson) :
    (CG3.loadPaper s pid info).paper_info =
      insertA pid
        ⟨info.author.getD "Unknown", info.pi.getD "Unknown", info.year.getD "Unknown", none⟩
        s.paper_info := by
  simp [CG3.loadPaper]

theorem loadPaper3_links (s : Store CG3.PaperInfo) (pid : String) (info : PaperJson) :
    (CG3.loadPaper s pid info).paper_links = insertA pid (info.url.getD "") s.paper_links := by
  simp [CG3.loadPaper]

theorem foldl_loadPaper3_lookup_notmem :
    ∀ (ps : List (String × PaperJson)) (s : Store CG3.PaperInfo) (pid : String),
      pid ∉ ps.map Prod.fst →
      lookupA pid (ps.foldl (fun t p => CG3.loadPaper t p.1 p.2) s).display_names =
          lookupA pid s.display_names ∧
        lookupA pid (ps.foldl (fun t p => CG3.loadPaper t p.1 p.2) s).paper_info =
          lookupA pid s.paper_info ∧
        lookupA pid (ps.foldl (fun t p => CG3.loadPaper t p.1 p.2) s).paper_links =
          lookupA pid s.paper_links := by
  intro ps
  induction ps with
  | nil => intro s pid _; exact ⟨rfl, rfl, rfl⟩
  | cons q rest ih =>
    intro s pid hnot
    simp only [List.map_cons, List.mem_cons, not_or] at hnot
    obtain ⟨hne, hrest⟩ := hnot
    have hrec := ih (CG3.loadPaper s q.1 q.2) pid hrest
    simp only [List.foldl_cons]
    refine ⟨?_, ?_, ?_⟩
    · rw [hrec.1, loadPaper3_display, lookupA_insertA_ne (fun h => hne h.symm)]
    · rw [hrec.2.1, loadPaper3_info, lookupA_insertA_ne (fun h => hne h.symm)]
    · rw [hrec.2.2, loadPaper3_links, lookupA_insertA_ne (fun h => hne h.symm)]

theorem foldl_loadPaper3_lookup :
    ∀ (ps : List (String × PaperJson)) (s : Store CG3.PaperInfo) (pid : String)
      (info : PaperJson), (ps.map Prod.fst).Nodup → (pid, info) ∈ ps →
      lookupA pid (ps.foldl (fun t p => CG3.loadPaper t p.1 p.2) s).display_names =
          some (info.title.getD pid) ∧
        lookupA pid (ps.foldl (fun t p => CG3.loadPaper t p.1 p.2) s).paper_info =
          some ⟨info.author.getD "Unknown", info.pi.getD "Unknown",
            info.year.getD "Unknown", none⟩ ∧
        lookupA pid (ps.foldl (fun t p => CG3.loadPaper t p.1 p.2) s).paper_links =
          some (info.url.getD "") := by
  intro ps
  induction ps with
  | nil => intro s pid info _ hmem; simp at hmem
  | cons q rest ih =>
    intro s pid info hnd hmem
    simp only [List.map_cons, List.nodup_cons] at hnd
    rcases List.mem_cons.mp hmem with heq | hmem2
    · have hq1 : q.1 = pid := by rw [← heq]
      have hq2 : q.2 = info := by rw [← heq]
      subst hq1
      have hnot : q.1 ∉ rest.map Prod.fst := hnd.1
      have hrec := foldl_loadPaper3_lookup_notmem rest (CG3.loadPaper s q.1 q.2) q.1 hnot
      simp only [List.foldl_cons]
      subst hq2
      refine ⟨?_, ?_, ?_⟩
      · rw [hrec.1, loadPaper3_display, lookupA_insertA_self]
      · rw [hrec.2.1, loadPaper3_info, lookupA_insertA_self]
      · rw [hrec.2.2, loadPaper3_links, lookupA_insertA_self]
    · simp only [List.foldl_cons]
      exact ih (CG3.loadPaper s q.1 q.2) pid info hnd.2 hmem2

/-- C4 counterexample. A persisted paper object with no `title` field loads
with the paper's own id as its title, not the empty string claimed by the
spec. -/
theorem spec_C4_counterexample :
    lookupA "p1" (CG3.load_graph_from_json
        (some ⟨[("p1", ⟨none, none, none, none, none⟩)], []⟩)).display_names = some "p1" ∧
    ("p1" : String) ≠ "" := by
  exact ⟨rfl, by decide⟩

/-- C4 (amended). `load_graph_from_json` of an absent file is the empty
store; for an existing document, a paper's missing optional fields default to
the paper's own id for the title, `Unknown` for author/pi/year, and the empty
string for the url. -/
theorem spec_C4_load_defaults :
    CG3.load_graph_from_json none = emptyStore ∧
    (∀ (d : Doc) (pid : String) (info : PaperJson),
        (d.papers.map Prod.fst).Nodup → (pid, info) ∈ d.papers →
        lookupA pid (CG3.load_graph_from_json (some d)).display_names =
            some (info.title.getD pid) ∧
          lookupA pid (CG3.load_graph_from_json (some d)).paper_info =
            some ⟨info.author.getD "Unknown", info.pi.getD "Unknown",
              info.year.getD "Unknown", none⟩ ∧
          lookupA pid (CG3.load_graph_from_json (some d)).paper_links =
            some (info.url.getD "")) := by
  refine ⟨rfl, ?_⟩
  intro d pid info hnd hmem
  have hfold := foldl_loadPaper3_lookup d.papers emptyStore pid info hnd hmem
  simp only [CG3.load_graph_from_json, loadCitations_display, loadCitations_info,
    loadCitations_links]
  exact hfold

/-- Witness for C4 at a concrete document with one field-free paper. -/
theorem spec_C4_witness :
    lookupA "p1" (CG3.load_graph_from_json
          (some ⟨[("p1", ⟨none, none, none, none, none⟩)], []⟩)).display_names = some "p1" ∧
      lookupA "p1" (CG3.load_graph_from_json
          (some ⟨[("p1", ⟨none, none, none, none, none⟩)], []⟩)).paper_info =
        some ⟨"Unknown", "Unknown", "Unknown", none⟩ ∧
      lookupA "p1" (CG3.load_graph_from_json
          (some ⟨[("p1", ⟨none, none, none, none, none⟩)], []⟩)).paper_links = some "" :=
  spec_C4_load_defaults.2 ⟨[("p1", ⟨none, none, none, none, none⟩)], []⟩ "p1"
    ⟨none, none, none, none, none⟩ (by decide) (by decide)

/-! The PI heuristic. -/

theorem piScan_eq_find (base : String) (authors : List CG3.Author) :
    CG3.piScan base authors =
      match authors.find? (fun a => a.sequence == some "additional" && a.corresponding) with
      | some a => a.family.getD base
      | none => base := by
  induction authors with
  | nil => rfl
  | cons a rest ih =>
    simp only [CG3.piScan, List.find?_cons]
    by_cases h : (a.sequence == some "additional" && a.corresponding) = true
    · rw [if_pos h, h]
    · rw [if_neg h, ih]
      simp only [Bool.not_eq_true] at h
      rw [h]

/-- C3 counterexample. For a single-author record the code leaves the PI at
`Unknown` although the last listed author has family name `Smith` and no
author is flagged corresponding; the claim that the PI is the last listed
author therefore fails. -/
theorem spec_C3_counterexample :
    CG3.inferPI [⟨some "Smith", some "Jo", some "first", false⟩] = "Unknown" ∧
    (([⟨some "Smith", some "Jo", some "first", false⟩] : List CG3.Author).getLast?.map
        (fun a => a.family.getD "Unknown")) = some "Smith" ∧
    (CG3.fetch_paper_metadata "10.1/x" (.response 200 (some
        ⟨some ["T"], some [⟨some "Smith", some "Jo", some "first", false⟩],
          some [["2001"]], some []⟩))).map CG3.Metadata.pi = some "Unknown" ∧
    ("Unknown" : String) ≠ "Smith" := by
  exact ⟨rfl, rfl, rfl, by decide⟩

/-- C3 (amended). The PI inferred by `fetch_paper_metadata` is `Unknown`
whenever there are fewer than two authors; with at least two authors it is
the last author's family name (default `Unknown`), overridden by the family
name of the first author having `sequence == additional` and a truthy
`corresponding` flag. The first author is the `family` of the first entry in
the author list (default `Unknown`, also for an empty list). -/
theorem spec_C3_pi_heuristic :
    (∀ authors : List CG3.Author, authors.length ≤ 1 → CG3.inferPI authors = "Unknown") ∧
    (∀ authors : List CG3.Author, 2 ≤ authors.length →
        CG3.inferPI authors =
          match authors.find? (fun a => a.sequence == some "additional" && a.corresponding)
            with
          | some a => a.family.getD
              ((authors.getLast?.map (fun x => x.family.getD "Unknown")).getD "Unknown")
          | none =>
              (authors.getLast?.map (fun x => x.family.getD "Unknown")).getD "Unknown") ∧
    (∀ authors : List CG3.Author,
        CG3.firstAuthorOf authors =
          (authors.head?.map (fun a => a.family.getD "Unknown")).getD "Unknown") := by
  refine ⟨?_, ?_, ?_⟩
  · intro authors h
    unfold CG3.inferPI
    rw [if_neg (by omega)]
  · intro authors h
    unfold CG3.inferPI
    rw [if_pos (by omega)]
    exact piScan_eq_find _ authors
  · intro authors
    cases authors <;> rfl

/-- Witness for C3 with two authors, the second flagged corresponding with
sequence `additional`: its family name overrides the last-author guess. -/
theorem spec_C3_witness :
    (2 ≤ ([⟨some "A", none, some "first", false⟩, ⟨some "B", none, some "additional", true⟩,
        ⟨some "C", none, none, false⟩] : List CG3.Author).length) ∧
    CG3.inferPI [⟨some "A", none, some "first", false⟩,
        ⟨some "B", none, some "additional", true⟩, ⟨some "C", none, none, false⟩] =
      match ([⟨some "A", none, some "first", false⟩, ⟨some "B", none, some "additional", true⟩,
          ⟨some "C", none, none, false⟩] : List CG3.Author).find?
          (fun a => a.sequence == some "additional" && a.corresponding) with
      | some a => a.family.getD
          ((([⟨some "A", none, some "first", false⟩,
              ⟨some "B", none, some "additional", true⟩,
              ⟨some "C", none, none, false⟩] : List CG3.Author).getLast?.map
            (fun x => x.family.getD "Unknown")).getD "Unknown")
      | none =>
          ((([⟨some "A", none, some "first", false⟩,
              ⟨some "B", none, some "additional", true⟩,
              ⟨some "C", none, none, false⟩] : List CG3.Author).getLast?.map
            (fun x => x.family.getD "Unknown")).getD "Unknown") :=
  ⟨by decide, spec_C3_pi_heuristic.2.1 _ (by decide)⟩

/-! Character-class facts used for the year parsing. -/

theorem digit_not_whitespace {c : Char} (h : c.isDigit = true) : c.isWhitespace = false := by
  simp [Char.isDigit] at h
  simp only [Char.isWhitespace, Bool.or_eq_false_iff, decide_eq_false_iff_not]
  refine ⟨⟨⟨?_, ?_⟩, ?_⟩, ?_⟩ <;> (rintro rfl; simp_all)

theorem digit_ne_minus {c : Char} (h : c.isDigit = true) : c ≠ '-' := by
  rintro rfl; simp [Char.isDigit] at h

theorem digit_ne_plus {c : Char} (h : c.isDigit = true) : c ≠ '+' := by
  rintro rfl; simp [Char.isDigit] at h

theorem dropWhile_eq_self_of_all {p : Char → Bool} {l : List Char}
    (h : ∀ c ∈ l, p c = false) : l.dropWhile p = l := by
  cases l with
  | nil => rfl
  | cons c rest => simp [List.dropWhile_cons, h c (by simp)]

theorem pyStrip_of_digits {y : String} (h : CG3.isDigitStr y = true) : pyStrip y = y := by
  unfold CG3.isDigitStr at h
  simp only [Bool.and_eq_true, Bool.not_eq_true', List.isEmpty_eq_false_iff_exists_mem,
    List.all_eq_true] at h
  have hall : ∀ c ∈ y.data, c.isWhitespace = false := by
    intro c hc
    exact digit_not_whitespace (h.2 c hc)
  unfold pyStrip
  rw [dropWhile_eq_self_of_all hall,
    dropWhile_eq_self_of_all (fun c hc => hall c (List.mem_reverse.mp hc)),
    List.reverse_reverse]

theorem pyInt_of_digits {y : String} (h : CG3.isDigitStr y = true) :
    CG3.pyInt? y = some ((toNatFold 0 y.data : Nat) : Int) := by
  have hs := pyStrip_of_digits h
  unfold CG3.isDigitStr at h
  simp only [Bool.and_eq_true, Bool.not_eq_true', List.isEmpty_eq_false_iff_exists_mem,
    List.all_eq_true] at h
  obtain ⟨x, hx⟩ := h.1
  rcases hy : y.data with _ | ⟨c, ds⟩
  · rw [hy] at hx; simp at hx
  · have hcdig : c.isDigit = true := h.2 c (by rw [hy]; simp)
    have hdigits : CG3.pyIntDigits? (c :: ds) = some (toNatFold 0 (c :: ds)) := by
      unfold CG3.pyIntDigits?
      rw [if_neg (by simp), if_pos]
      simp only [List.all_eq_true]
      intro x2 hx2
      exact h.2 x2 (by rw [hy]; exact hx2)
    have hmatch : CG3.pyInt? y = (CG3.pyIntDigits? (c :: ds)).map Int.ofNat := by
      unfold CG3.pyInt?
      rw [hs, hy]
      change (if c = '-' then (CG3.pyIntDigits? ds).map (fun n => -(Int.ofNat n))
        else if c = '+' then (CG3.pyIntDigits? ds).map Int.ofNat
        else (CG3.pyIntDigits? (c :: ds)).map Int.ofNat) = _
      rw [if_neg (digit_ne_minus hcdig), if_neg (digit_ne_plus hcdig)]
    rw [hmatch, hdigits]
    rfl

/-- C8 counterexample. The year string `" 1994"` parses as the integer 1994
with Python's `int(...)` — the table colour is accordingly the 1990s green —
yet the Decade label is computed with `str.isdigit`, which rejects the
leading space, so the label is `Unknown` instead of the `1990s` the claim
requires for every year that parses as an integer. -/
theorem spec_C8_counterexample :
    CG3.pyInt? " 1994" = some 1994 ∧
    CG3.decadeLabel " 1994" = "Unknown" ∧
    CG3.get_decade_color " 1994" = "rgb(0, 255, 0)" ∧
    ("Unknown" : String) ≠ decRepr ((1994 : Nat) / 10 * 10) ++ "s" := by
  exact ⟨by decide, rfl, by decide, by decide⟩

/-- C8 (amended). The Decade label of a paper is derived from
`(int(year) // 10) * 10` exactly when the year string consists solely of
digits (`str.isdigit`); any other year string — including ones `int(...)`
accepts, such as signed or whitespace-padded numbers — gets the label
`Unknown`. In particular `1994` labels as `1990s` and `n/a` as `Unknown`.
The node colour uses `int(...)` parsing: the lookup-table colour of the
parsed decade, and gray for unmapped decades or unparsable years. -/
theorem spec_C8_decade_grouping :
    CG3.decadeLabel "1994" = "1990s" ∧
    CG3.decadeLabel "n/a" = "Unknown" ∧
    (∀ y : String, CG3.isDigitStr y = false → CG3.decadeLabel y = "Unknown") ∧
    (∀ y : String, CG3.isDigitStr y = true →
        ∃ n : Nat, CG3.pyInt? y = some (n : Int) ∧
          CG3.decadeLabel y = decRepr (n / 10 * 10) ++ "s") ∧
    (∀ (y : String) (n : Int), CG3.pyInt? y = some n →
        CG3.get_decade_color y =
          (CG3.decadeColorTable.lookup (n.fdiv 10 * 10)).getD "rgb(128, 128, 128)") ∧
    (∀ y : String, CG3.pyInt? y = none →
        CG3.get_decade_color y = "rgb(128, 128, 128)") := by
  refine ⟨rfl, rfl, ?_, ?_, ?_, ?_⟩
  · intro y h
    unfold CG3.decadeLabel
    rw [if_neg (by simp [h])]
  · intro y h
    refine ⟨toNatFold 0 y.data, pyInt_of_digits h, ?_⟩
    unfold CG3.decadeLabel
    rw [if_pos h]
  · intro y n h
    unfold CG3.get_decade_color
    rw [h]
  · intro y h
    unfold CG3.get_decade_color
    rw [h]

/-- Witness for C8: the digit-string year 1994 parses to 1994 and labels as
1990s. -/
theorem spec_C8_witness :
    CG3.isDigitStr "1994" = true ∧
    ∃ n : Nat, CG3.pyInt? "1994" = some (n : Int) ∧
      CG3.decadeLabel "1994" = decRepr (n / 10 * 10) ++ "s" :=
  ⟨by decide, spec_C8_decade_grouping.2.2.2.1 "1994" (by decide)⟩

/-! Success and failure of the saving pass. -/

theorem saveNodes_isSome_iff (s : Store CG3.PaperInfo) :
    ∀ ns : List String, (CG3.saveNodes s ns).isSome = true ↔
      ∀ n ∈ ns, (lookupA n s.display_names).isSome = true ∧
        (lookupA n s.paper_info).isSome = true ∧
        (lookupA n s.paper_links).isSome = true := by
  intro ns
  induction ns with
  | nil => simp [CG3.saveNodes]
  | cons n rest ih =>
    rcases h1 : lookupA n s.display_names with _ | t
    · simp [CG3.saveNodes, h1]
    · rcases h2 : lookupA n s.paper_info with _ | info
      · simp [CG3.saveNodes, h1, h2]
      · rcases h3 : lookupA n s.paper_links with _ | url
        · simp [CG3.saveNodes, h1, h2, h3]
        · simp [CG3.saveNodes, h1, h2, h3, ih]

/-- C9. Saving succeeds exactly when every node of the graph has entries in
the display-names, paper-info and paper-links dicts; a store produced by
loading a document whose `citations` name an id absent from `papers` has a
dangling node without such entries, and saving it raises `KeyError`
(modelled as `none`) instead of producing a document. -/
theorem spec_C9_save_requires_entries :
    (∀ s : Store CG3.PaperInfo, (CG3.save_graph_to_json s).isSome = true ↔
        ∀ n ∈ s.nodes, (lookupA n s.display_names).isSome = true ∧
          (lookupA n s.paper_info).isSome = true ∧
          (lookupA n s.paper_links).isSome = true) ∧
    ("b" ∈ (CG3.load_graph_from_json (some ⟨[("a", ⟨some "T", some "A", some "P",
        some "2000", some "u"⟩)], [("a", ["b"])]⟩)).nodes ∧
      lookupA "b" (CG3.load_graph_from_json (some ⟨[("a", ⟨some "T", some "A", some "P",
        some "2000", some "u"⟩)], [("a", ["b"])]⟩)).display_names = none ∧
      CG3.save_graph_to_json (CG3.load_graph_from_json (some ⟨[("a", ⟨some "T", some "A",
        some "P", some "2000", some "u"⟩)], [("a", ["b"])]⟩)) = none) := by
  constructor
  · intro s
    have hs := saveNodes_isSome_iff s s.nodes
    unfold CG3.save_graph_to_json
    rcases hsn : CG3.saveNodes s s.nodes with _ | pc <;> rw [hsn] at hs <;> simpa using hs
  · exact ⟨by decide, rfl, rfl⟩

/-- Witness for C9: a complete one-paper store saves successfully. -/
theorem spec_C9_witness :
    (CG3.save_graph_to_json
        (⟨["a"], [], [("a", "t")], [("a", ⟨"x", "y", "z", none⟩)], [("a", "u")]⟩ :
          Store CG3.PaperInfo)).isSome = true :=
  (spec_C9_save_requires_entries.1 _).mpr (by decide)

/-! Components of the store after the import's mutation prefix. -/

theorem importBase_nodes (s : Store CG3.PaperInfo) (doi : String) (md : CG3.Metadata)
    (cpi : String) : (CG3.importBase s doi md cpi).nodes = (addNode s doi).nodes := by
  unfold CG3.importBase
  split <;> rfl

theorem importBase_edges (s : Store CG3.PaperInfo) (doi : String) (md : CG3.Metadata)
    (cpi : String) : (CG3.importBase s doi md cpi).edges = s.edges := by
  unfold CG3.importBase
  split <;> simp [addNode_edges]

theorem importBase_display (s : Store CG3.PaperInfo) (doi : String) (md : CG3.Metadata)
    (cpi : String) :
    (CG3.importBase s doi md cpi).display_names = insertA doi md.title s.display_names := by
  unfold CG3.importBase
  split <;> simp [addNode_display]

theorem importBase_links (s : Store CG3.PaperInfo) (doi : String) (md : CG3.Metadata)
    (cpi : String) :
    (CG3.importBase s doi md cpi).paper_links = insertA doi md.url s.paper_links := by
  unfold CG3.importBase
  split <;> simp [addNode_links]

theorem importBase_info_lookup (s : Store CG3.PaperInfo) (doi : String) (md : CG3.Metadata)
    (cpi : String) :
    lookupA doi (CG3.importBase s doi md cpi).paper_info =
      some ⟨md.author, cpi, md.year, some md.all_authors⟩ := by
  unfold CG3.importBase
  split
  · simp only [addNode_info]
    rw [lookupA_insertA_self]
  · simp only [addNode_info]
    rw [lookupA_insertA_self]
    have hpi : cpi = md.pi := by
      by_contra hcon
      simp_all
    rw [hpi]

/-! The reference-matching loop of the DOI import. -/

theorem importFold_spec (doi : String) (E : List String) :
    ∀ (refs : List String) (t : Store CG3.PaperInfo) (cnt : Nat),
      (∀ e, e ∈ (refs.foldl (fun acc ref =>
            if ref ∈ E then (addEdge acc.1 doi ref, acc.2 + 1) else acc) (t, cnt)).1.edges ↔
          e ∈ t.edges ∨ (e.1 = doi ∧ e.2 ∈ refs ∧ e.2 ∈ E)) ∧
      (refs.foldl (fun acc ref =>
            if ref ∈ E then (addEdge acc.1 doi ref, acc.2 + 1) else acc) (t, cnt)).2 =
        cnt + (refs.filter (fun ref => decide (ref ∈ E))).length ∧
      (refs.foldl (fun acc ref =>
            if ref ∈ E then (addEdge acc.1 doi ref, acc.2 + 1) else acc) (t, cnt)).1.display_names
        = t.display_names ∧
      (refs.foldl (fun acc ref =>
            if ref ∈ E then (addEdge acc.1 doi ref, acc.2 + 1) else acc) (t, cnt)).1.paper_info
        = t.paper_info ∧
      (refs.foldl (fun acc ref =>
            if ref ∈ E then (addEdge acc.1 doi ref, acc.2 + 1) else acc) (t, cnt)).1.paper_links
        = t.paper_links ∧
      (doi ∈ t.nodes → (∀ x ∈ E, x ∈ t.nodes) →
        (refs.foldl (fun acc ref =>
            if ref ∈ E then (addEdge acc.1 doi ref, acc.2 + 1) else acc) (t, cnt)).1.nodes
          = t.nodes) := by
  intro refs
  induction refs with
  | nil =>
    intro t cnt
    exact ⟨fun e => by simp, by simp, rfl, rfl, rfl, fun _ _ => rfl⟩
  | cons ref rest ih =>
    intro t cnt
    by_cases hre : ref ∈ E
    · have hrec := ih (addEdge t doi ref) (cnt + 1)
      simp only [List.foldl_cons, if_pos hre]
      refine ⟨?_, ?_, ?_, ?_, ?_, ?_⟩
      · intro e
        rw [hrec.1 e, mem_addEdge_edges]
        constructor
        · rintro ((h | rfl) | ⟨h1, h2, h3⟩)
          · exact Or.inl h
          · exact Or.inr ⟨rfl, by simp, hre⟩
          · exact Or.inr ⟨h1, by simp [h2], h3⟩
        · rintro (h | ⟨h1, h2, h3⟩)
          · exact Or.inl (Or.inl h)
          · rcases List.mem_cons.mp h2 with rfl | h2b
            · refine Or.inl (Or.inr ?_)
              cases e
              simp_all
            · exact Or.inr ⟨h1, h2b, h3⟩
      · rw [hrec.2.1]
        simp only [List.filter_cons]
        rw [if_pos (by simpa using hre)]
        simp only [List.length_cons]
        omega
      · rw [hrec.2.2.1, addEdge_display]
      · rw [hrec.2.2.2.1, addEdge_info]
      · rw [hrec.2.2.2.2.1, addEdge_links]
      · intro hdoi hE
        have hnodes : (addEdge t doi ref).nodes = t.nodes :=
          addEdge_nodes_of_mem hdoi (hE ref hre)
        rw [hrec.2.2.2.2.2 (by rw [hnodes]; exact hdoi)
          (fun x hx => by rw [hnodes]; exact hE x hx), hnodes]
    · have hrec := ih t cnt
      simp only [List.foldl_cons, if_neg hre]
      refine ⟨?_, ?_, hrec.2.2.1, hrec.2.2.2.1, hrec.2.2.2.2.1, hrec.2.2.2.2.2⟩
      · intro e
        rw [hrec.1 e]
        constructor
        · rintro (h | ⟨h1, h2, h3⟩)
          · exact Or.inl h
          · exact Or.inr ⟨h1, by simp [h2], h3⟩
        · rintro (h | ⟨h1, h2, h3⟩)
          · exact Or.inl h
          · rcases List.mem_cons.mp h2 with rfl | h2b
            · exact absurd h3 hre
            · exact Or.inr ⟨h1, h2b, h3⟩
      · rw [hrec.2.1]
        simp only [List.filter_cons]
        rw [if_neg (by simpa using hre)]

/-- C2 counterexample. With one existing paper `a` and a fetched reference
list `[a, a]` naming it twice, the import adds a single edge `(d, a)` but
reports (and the spec claims it returns) a citation count of 2: the count is
the number of matching reference occurrences, not the number of edges
added. -/
theorem spec_C2_counterexample :
    (CG3.add_paper_with_references
        (⟨["a"], [], [("a", "t")], [("a", ⟨"x", "y", "z", none⟩)], [("a", "u")]⟩ :
          Store CG3.PaperInfo)
        "d" (some ⟨"T", "A", "P", "2000", "u", ["a", "a"], ["A P"]⟩) "P").citations_found = 2 ∧
    (CG3.add_paper_with_references
        (⟨["a"], [], [("a", "t")], [("a", ⟨"x", "y", "z", none⟩)], [("a", "u")]⟩ :
          Store CG3.PaperInfo)
        "d" (some ⟨"T", "A", "P", "2000", "u", ["a", "a"], ["A P"]⟩) "P").store.edges =
      [("d", "a")] ∧
    (2 : Nat) ≠ 1 := by
  exact ⟨rfl, rfl, by decide⟩

/-- C2 (amended). For every store and every successfully fetched metadata,
`add_paper_with_references` creates/overwrites the paper keyed by the DOI
itself (title, attributes and url from the metadata, the PI as possibly
corrected in the text input), adds a citation edge from the new paper to
every reference DOI present among the store's node ids (the new DOI
included) and creates no other node; it returns `True` (with `None` the
failure value), and the reported `citations_found` count is the number of
reference-list entries matching an existing id, counted with multiplicity —
which can exceed the number of edges actually added. -/
theorem spec_C2_import_success (s : Store CG3.PaperInfo) (doi correctedPi : String)
    (md : CG3.Metadata) (r : CG3.ImportResult)
    (hr : r = CG3.add_paper_with_references s doi (some md) correctedPi) :
    r.ok = some true ∧
    (∀ x, x ∈ r.store.nodes ↔ x ∈ s.nodes ∨ x = doi) ∧
    lookupA doi r.store.display_names = some md.title ∧
    lookupA doi r.store.paper_info =
      some ⟨md.author, correctedPi, md.year, some md.all_authors⟩ ∧
    lookupA doi r.store.paper_links = some md.url ∧
    (∀ e, e ∈ r.store.edges ↔
        e ∈ s.edges ∨ (e.1 = doi ∧ e.2 ∈ md.references ∧ (e.2 ∈ s.nodes ∨ e.2 = doi))) ∧
    r.citations_found =
      (md.references.filter (fun ref => decide (ref ∈ s.nodes ∨ ref = doi))).length := by
  subst hr
  simp only [CG3.add_paper_with_references]
  have hF := importFold_spec doi (CG3.importBase s doi md correctedPi).nodes md.references
    (CG3.importBase s doi md correctedPi) 0
  refine ⟨by trivial, ?_, ?_, ?_, ?_, ?_, ?_⟩
  · intro x
    rw [hF.2.2.2.2.2 (by rw [importBase_nodes, mem_addNode_nodes]; simp) (fun a ha => ha),
      importBase_nodes, mem_addNode_nodes]
  · rw [hF.2.2.1, importBase_display, lookupA_insertA_self]
  · rw [hF.2.2.2.1, importBase_info_lookup]
  · rw [hF.2.2.2.2.1, importBase_links, lookupA_insertA_self]
  · intro e
    rw [hF.1 e, importBase_edges, importBase_nodes, mem_addNode_nodes]
  · rw [hF.2.1, Nat.zero_add]
    congr 1
    apply List.filter_congr
    intro ref _
    rw [decide_eq_decide]
    rw [importBase_nodes, mem_addNode_nodes]

/-- Witness for C2: importing DOI `d` with one matching reference into a
one-paper store succeeds and reports one found citation. -/
theorem spec_C2_witness :
    (CG3.add_paper_with_references
        (⟨["a"], [], [("a", "t")], [("a", ⟨"x", "y", "z", none⟩)], [("a", "u")]⟩ :
          Store CG3.PaperInfo)
        "d" (some ⟨"T", "A", "P", "2000", "u", ["a"], ["A P"]⟩) "P").ok = some true ∧
    (CG3.add_paper_with_references
        (⟨["a"], [], [("a", "t")], [("a", ⟨"x", "y", "z", none⟩)], [("a", "u")]⟩ :
          Store CG3.PaperInfo)
        "d" (some ⟨"T", "A", "P", "2000", "u", ["a"], ["A P"]⟩) "P").citations_found =
      ((["a"] : List String).filter
        (fun ref => decide (ref ∈ (["a"] : List String) ∨ ref = "d"))).length :=
  ⟨(spec_C2_import_success
      ⟨["a"], [], [("a", "t")], [("a", ⟨"x", "y", "z", none⟩)], [("a", "u")]⟩
      "d" "P" ⟨"T", "A", "P", "2000", "u", ["a"], ["A P"]⟩ _ rfl).1,
   (spec_C2_import_success
      ⟨["a"], [], [("a", "t")], [("a", ⟨"x", "y", "z", none⟩)], [("a", "u")]⟩
      "d" "P" ⟨"T", "A", "P", "2000", "u", ["a"], ["A P"]⟩ _ rfl).2.2.2.2.2.2⟩

/-! Shape of a successful save and of the subsequent load. -/

theorem saveNodes_eq (s : Store CG3.PaperInfo) :
    ∀ ns : List String,
      (∀ n ∈ ns, (lookupA n s.display_names).isSome = true ∧
        (lookupA n s.paper_info).isSome = true ∧ (lookupA n s.paper_links).isSome = true) →
      CG3.saveNodes s ns =
        some (ns.map (fun n => (n, CG3.savedRecord s n)),
          ns.map (fun n => (n, successors s n))) := by
  intro ns
  induction ns with
  | nil => intro _; rfl
  | cons n rest ih =>
    intro h
    obtain ⟨h1, h2, h3⟩ := h n (by simp)
    obtain ⟨t, ht⟩ := Option.isSome_iff_exists.mp h1
    obtain ⟨info, hinfo⟩ := Option.isSome_iff_exists.mp h2
    obtain ⟨url, hurl⟩ := Option.isSome_iff_exists.mp h3
    have hrest := ih (fun m hm => h m (by simp [hm]))
    simp only [CG3.saveNodes, ht, hinfo, hurl, hrest, Option.map_some', List.map_cons]
    simp [CG3.savedRecord, ht, hinfo, hurl]

theorem save_eq (s : Store CG3.PaperInfo)
    (hmaps : ∀ n ∈ s.nodes, (lookupA n s.display_names).isSome = true ∧
      (lookupA n s.paper_info).isSome = true ∧ (lookupA n s.paper_links).isSome = true) :
    CG3.save_graph_to_json s =
      some ⟨s.nodes.map (fun n => (n, CG3.savedRecord s n)),
        s.nodes.map (fun n => (n, successors s n))⟩ := by
  unfold CG3.save_graph_to_json
  rw [saveNodes_eq s s.nodes hmaps]
  rfl

theorem loadPaper3_nodes (s : Store CG3.PaperInfo) (pid : String) (info : PaperJson) :
    (CG3.loadPaper s pid info).nodes = (addNode s pid).nodes := by
  simp [CG3.loadPaper]

theorem loadPaper3_edges (s : Store CG3.PaperInfo) (pid : String) (info : PaperJson) :
    (CG3.loadPaper s pid info).edges = s.edges := by
  simp [CG3.loadPaper]

theorem foldl_loadPaper3_edges (ps : List (String × PaperJson)) (s : Store CG3.PaperInfo) :
    (ps.foldl (fun t p => CG3.loadPaper t p.1 p.2) s).edges = s.edges := by
  induction ps generalizing s with
  | nil => rfl
  | cons p rest ih => simp [ih, loadPaper3_edges]

theorem foldl_loadPaper3_mem_nodes :
    ∀ (ps : List (String × PaperJson)) (s : Store CG3.PaperInfo) (x : String),
      x ∈ (ps.foldl (fun t p => CG3.loadPaper t p.1 p.2) s).nodes ↔
        x ∈ s.nodes ∨ x ∈ ps.map Prod.fst := by
  intro ps
  induction ps with
  | nil => intro s x; simp
  | cons p rest ih =>
    intro s x
    simp only [List.foldl_cons, ih, loadPaper3_nodes, mem_addNode_nodes, List.map_cons,
      List.mem_cons]
    tauto

theorem mem_successors (s : Store CG3.PaperInfo) (n c : String) :
    c ∈ successors s n ↔ (n, c) ∈ s.edges := by
  simp only [successors, List.mem_map, List.mem_filter]
  constructor
  · rintro ⟨e, ⟨he, hbeq⟩, rfl⟩
    have : e.1 = n := by simpa using hbeq
    rw [← this]
    exact he
  · intro h
    exact ⟨(n, c), ⟨h, by simp⟩, rfl⟩

/-- C1. Saving a well-formed store (duplicate-free node list, every node
carrying entries in the three dicts, every edge endpoint a node — networkx
guarantees the last) and loading the produced document restores the store:
same node set, same edge set, and for every paper the same persisted title,
author, pi, year and url. -/
theorem spec_C1_roundtrip (s : Store CG3.PaperInfo)
    (hn : s.nodes.Nodup)
    (hmaps : ∀ n ∈ s.nodes, (lookupA n s.display_names).isSome = true ∧
      (lookupA n s.paper_info).isSome = true ∧ (lookupA n s.paper_links).isSome = true)
    (hclosed : ∀ e ∈ s.edges, e.1 ∈ s.nodes ∧ e.2 ∈ s.nodes) :
    ∃ d : Doc, CG3.save_graph_to_json s = some d ∧
      (∀ x, x ∈ (CG3.load_graph_from_json (some d)).nodes ↔ x ∈ s.nodes) ∧
      (∀ e, e ∈ (CG3.load_graph_from_json (some d)).edges ↔ e ∈ s.edges) ∧
      (∀ n ∈ s.nodes,
        lookupA n (CG3.load_graph_from_json (some d)).display_names =
            lookupA n s.display_names ∧
          (lookupA n (CG3.load_graph_from_json (some d)).paper_info).map
              (fun i => (i.author, i.pi, i.year)) =
            (lookupA n s.paper_info).map (fun i => (i.author, i.pi, i.year)) ∧
          lookupA n (CG3.load_graph_from_json (some d)).paper_links =
            lookupA n s.paper_links) := by
  refine ⟨⟨s.nodes.map (fun n => (n, CG3.savedRecord s n)),
    s.nodes.map (fun n => (n, successors s n))⟩, save_eq s hmaps, ?_⟩
  simp only [CG3.load_graph_from_json]
  have hP0mem : ∀ x, x ∈ ((s.nodes.map (fun n => (n, CG3.savedRecord s n))).foldl
      (fun t p => CG3.loadPaper t p.1 p.2) emptyStore).nodes ↔ x ∈ s.nodes := by
    intro x
    rw [foldl_loadPaper3_mem_nodes]
    simp [emptyStore, List.map_map, Function.comp]
  have hP0edges : ((s.nodes.map (fun n => (n, CG3.savedRecord s n))).foldl
      (fun t p => CG3.loadPaper t p.1 p.2) emptyStore).edges = [] := by
    rw [foldl_loadPaper3_edges]
    rfl
  have hclosedC : ∀ pc ∈ s.nodes.map (fun n => (n, successors s n)),
      pc.1 ∈ ((s.nodes.map (fun n => (n, CG3.savedRecord s n))).foldl
        (fun t p => CG3.loadPaper t p.1 p.2) emptyStore).nodes ∧
      ∀ c ∈ pc.2, c ∈ ((s.nodes.map (fun n => (n, CG3.savedRecord s n))).foldl
        (fun t p => CG3.loadPaper t p.1 p.2) emptyStore).nodes := by
    intro pc hpc
    simp only [List.mem_map] at hpc
    obtain ⟨n, hns, rfl⟩ := hpc
    refine ⟨(hP0mem n).mpr hns, ?_⟩
    intro c hc
    rw [hP0mem c]
    exact (hclosed (n, c) ((mem_successors s n c).mp hc)).2
  have hnodesEq := loadCitations_nodes_of_closed hclosedC
  refine ⟨?_, ?_, ?_⟩
  · intro x
    rw [hnodesEq]
    exact hP0mem x
  · intro e
    rw [loadCitations_mem_edges, hP0edges]
    simp only [List.not_mem_nil, false_or, List.mem_map]
    constructor
    · rintro ⟨pc, ⟨n, hns, rfl⟩, h1, h2⟩
      rw [mem_successors] at h2
      have he : e = (n, e.2) := by
        cases e
        simp_all
      rw [he]
      exact h2
    · intro he
      refine ⟨(e.1, successors s e.1), ⟨e.1, (hclosed e he).1, rfl⟩, rfl, ?_⟩
      rw [mem_successors]
      cases e
      exact he
  · intro n hns
    obtain ⟨h1, h2, h3⟩ := hmaps n hns
    obtain ⟨t, ht⟩ := Option.isSome_iff_exists.mp h1
    obtain ⟨info, hinfo⟩ := Option.isSome_iff_exists.mp h2
    obtain ⟨url, hurl⟩ := Option.isSome_iff_exists.mp h3
    have hkeys : ((s.nodes.map (fun n => (n, CG3.savedRecord s n))).map Prod.fst).Nodup := by
      simpa [List.map_map, Function.comp_def] using hn
    have hmem : (n, CG3.savedRecord s n) ∈
        s.nodes.map (fun n => (n, CG3.savedRecord s n)) :=
      List.mem_map.mpr ⟨n, hns, rfl⟩
    have hlook := foldl_loadPaper3_lookup (s.nodes.map (fun n => (n, CG3.savedRecord s n)))
      emptyStore n (CG3.savedRecord s n) hkeys hmem
    refine ⟨?_, ?_, ?_⟩
    · rw [loadCitations_display, hlook.1]
      simp [CG3.savedRecord, ht]
    · rw [loadCitations_info, hlook.2.1]
      simp [CG3.savedRecord, hinfo]
    · rw [loadCitations_links, hlook.2.2]
      simp [CG3.savedRecord, hurl]

/-- Witness for C1: a two-paper store with one citation round-trips. -/
theorem spec_C1_witness :
    ∃ d : Doc,
      CG3.save_graph_to_json
          (⟨["a", "b"], [("a", "b")], [("a", "T"), ("b", "U")],
            [("a", ⟨"A", "P", "2000", none⟩), ("b", ⟨"B", "Q", "2010", none⟩)],
            [("a", "ua"), ("b", "ub")]⟩ : Store CG3.PaperInfo) = some d ∧
      (∀ x, x ∈ (CG3.load_graph_from_json (some d)).nodes ↔
          x ∈ (["a", "b"] : List String)) ∧
      (∀ e, e ∈ (CG3.load_graph_from_json (some d)).edges ↔
          e ∈ ([("a", "b")] : List (String × String))) ∧
      (∀ n ∈ (["a", "b"] : List String),
        lookupA n (CG3.load_graph_from_json (some d)).display_names =
            lookupA n [("a", "T"), ("b", "U")] ∧
          (lookupA n (CG3.load_graph_from_json (some d)).paper_info).map
              (fun i => (i.author, i.pi, i.year)) =
            (lookupA n ([("a", ⟨"A", "P", "2000", none⟩), ("b", ⟨"B", "Q", "2010", none⟩)] :
                List (String × CG3.PaperInfo))).map (fun i => (i.author, i.pi, i.year)) ∧
          lookupA n (CG3.load_graph_from_json (some d)).paper_links =
            lookupA n [("a", "ua"), ("b", "ub")]) :=
  spec_C1_roundtrip
    ⟨["a", "b"], [("a", "b")], [("a", "T"), ("b", "U")],
      [("a", ⟨"A", "P", "2000", none⟩), ("b", ⟨"B", "Q", "2010", none⟩)],
      [("a", "ua"), ("b", "ub")]⟩
    (by decide) (by decide) (by decide)

end Citagraph
